import Mathlib

/-!
Verification of the abra operation-batch executor, playbook store and DOM
settle detector.  The TypeScript sources (src/lib/playbook-store.ts,
src/lib/session.ts, src/lib/dom-settle.ts) are shallowly embedded below:
JS numbers are modelled as exact rationals, `Math.round` as floor of x+1/2,
object mutation through references as in-place list updates at the index the
reference was found at, and the asynchronous browser driver as an oracle of
state-passing functions.  Calls whose results the code catches are modelled
with `Except`.
-/

namespace Abra

/-- JS `Math.round`: half-up rounding, `⌊x + 1/2⌋`. -/
def jsRound (q : ℚ) : ℤ := ⌊q + 1/2⌋

/-- JS truthiness of a `string | undefined` value: `undefined` and the empty
string are falsy. -/
def truthyStr : Option String → Bool
  | none => false
  | some s => !(s == "")

/-- JS `a || d` for a `string | undefined` value `a` and a string default. -/
def jsOrD : Option String → String → String
  | some s, d => if s == "" then d else s
  | none, d => d

/-- JS `a || b` where both sides are `string | undefined`. -/
def jsOrOpt (a b : Option String) : Option String :=
  if truthyStr a then a else b

/-- JS template interpolation of a `string | undefined` value
(`undefined` prints as the string "undefined"). -/
def jsStr : Option String → String
  | some s => s
  | none => "undefined"

/-- JS `s.toLowerCase()` (ASCII range), mapped over the character list. -/
def strToLower (s : String) : String := String.mk (s.toList.map Char.toLower)

/-- Does the character list start with the second list? (helper for `strIncludes`) -/
def charsStartWith : List Char → List Char → Bool
  | _, [] => true
  | [], _ :: _ => false
  | c :: l, d :: p => c == d && charsStartWith l p

/-- Does the second character list occur contiguously inside the first? -/
def charsInclude : List Char → List Char → Bool
  | [], p => charsStartWith [] p
  | l@(_ :: l'), p => charsStartWith l p || charsInclude l' p

/-- JS `s.includes(sub)`: substring containment. -/
def strIncludes (s sub : String) : Bool :=
  charsInclude s.toList sub.toList

-- ── Coordinate normalizer (playbook-store.ts, lines 94-122) ──

structure Viewport where
  width : ℚ
  height : ℚ
deriving DecidableEq

structure ScrollPos where
  x : ℚ
  y : ℚ
deriving DecidableEq

structure RelativePosition where
  relX : ℚ
  relY : ℚ
  viewportWidth : ℚ
  viewportHeight : ℚ
  scrollX : ℚ
  scrollY : ℚ
deriving DecidableEq

/-- `toRelative` (playbook-store.ts 94-108): absolute pixel coordinates to
viewport-relative ratios; scroll offsets stored untransformed. -/
def toRelative (absX absY : ℚ) (viewport : Viewport)
    (scroll : ScrollPos := ⟨0, 0⟩) : RelativePosition :=
  { relX := absX / viewport.width
    relY := absY / viewport.height
    viewportWidth := viewport.width
    viewportHeight := viewport.height
    scrollX := scroll.x
    scrollY := scroll.y }

structure AbsPoint where
  x : ℤ
  y : ℤ
deriving DecidableEq

/-- `toAbsolute` (playbook-store.ts 114-122): recompute absolute pixel
coordinates from a stored relative position under the current viewport. -/
def toAbsolute (stored : RelativePosition) (currentViewport : Viewport) : AbsPoint :=
  { x := jsRound (stored.relX * currentViewport.width)
    y := jsRound (stored.relY * currentViewport.height) }

-- ── Data model (playbook-store.ts 24-87, llm.ts) ──

inductive Direction
  | up
  | down
deriving DecidableEq

def Direction.str : Direction → String
  | .up => "up"
  | .down => "down"

/-- The `ActionType` union from llm.ts.  At runtime all operation tags are
plain strings shared between `Action`, `PlaybookOperation` and
`RecordedOperation`; the store's TS annotation names the six replayable tags
but performs no conversion (`action.type as RecordedOperation['type']`). -/
inductive ActionType
  | click
  | type
  | press
  | scroll
  | hover
  | drag
  | wait
  | done
  | failed
  | document
deriving DecidableEq

/-- The JS string tag of an action type. -/
def ActionType.str : ActionType → String
  | .click => "click"
  | .type => "type"
  | .press => "press"
  | .scroll => "scroll"
  | .hover => "hover"
  | .drag => "drag"
  | .wait => "wait"
  | .done => "done"
  | .failed => "failed"
  | .document => "document"

structure PlaybookOperation where
  type : ActionType
  selector : Option String := none
  position : Option RelativePosition := none
  text : Option String := none
  key : Option String := none
  direction : Option Direction := none
  amount : Option ℚ := none
  duration : Option ℚ := none
deriving DecidableEq

/-- Operation recorded during execution, before being saved to a playbook. -/
structure RecordedOperation where
  type : ActionType
  selector : Option String := none
  position : Option RelativePosition := none
  text : Option String := none
  key : Option String := none
  direction : Option Direction := none
  amount : Option ℚ := none
  duration : Option ℚ := none
  description : Option String := none
deriving DecidableEq

structure Playbook where
  id : String
  name : String
  domain : String
  pagePath : String
  operations : List PlaybookOperation
  recordedViewport : Viewport
  successCount : ℕ
  failCount : ℕ
  lastUsed : String
  createdAt : String
deriving DecidableEq

structure PlaybookData where
  domain : String
  playbooks : List Playbook
deriving DecidableEq

/-- The store's in-memory `Map<string, PlaybookData>` rendered as an
insertion-ordered association list. -/
def StoreData := List (String × PlaybookData)
deriving DecidableEq

/-- `Map.get`. -/
def getData (data : StoreData) (domain : String) : Option PlaybookData :=
  match data with
  | [] => none
  | (k, v) :: rest => if k == domain then some v else getData rest domain

/-- `Map.set`: update in place if the key exists, otherwise append. -/
def setData (data : StoreData) (domain : String) (pd : PlaybookData) : StoreData :=
  match data with
  | [] => [(domain, pd)]
  | (k, v) :: rest =>
    if k == domain then (k, pd) :: rest else (k, v) :: setData rest domain pd

/-- In-place update of the element at an index (rendering of JS mutation
through an object reference held into the array). -/
def listModify (f : α → α) : ℕ → List α → List α
  | _, [] => []
  | 0, x :: xs => f x :: xs
  | n + 1, x :: xs => x :: listModify f n xs

-- ── PlaybookStore operations (playbook-store.ts 126-423) ──

/-- `generateId` (playbook-store.ts 417-422): deterministic id from the
structural content of the operations.  `hash` stands for the external
`sha256 hex` digest from node:crypto. -/
def generateId (hash : String → String) (operations : List RecordedOperation) : String :=
  let content := String.intercalate "|" (operations.map fun op =>
    op.type.str ++ ":" ++ op.selector.getD "" ++ ":" ++ op.text.getD "" ++ ":" ++ op.key.getD "")
  (hash content).take 12

/-- The per-field copy `operations.map(op => ({type, selector, ...}))`
performed by `record` (playbook-store.ts 189-198). -/
def toPlaybookOperation (op : RecordedOperation) : PlaybookOperation :=
  { type := op.type
    selector := op.selector
    position := op.position
    text := op.text
    key := op.key
    direction := op.direction
    amount := op.amount
    duration := op.duration }

/-- `record` (playbook-store.ts 178-220).  `now` stands for
`new Date().toISOString()`; the method returns the new playbook and, being a
mutation of `this.data`, the updated store. -/
def record (hash : String → String) (now : String) (data : StoreData)
    (domain pagePath name : String) (operations : List RecordedOperation)
    (viewport : Viewport) : Playbook × StoreData :=
  let data0 := if (getData data domain).isSome then data
               else setData data domain ⟨domain, []⟩
  let playbookOps := operations.map toPlaybookOperation
  let id := generateId hash operations
  let playbook : Playbook :=
    { id := id
      name := name
      domain := domain
      pagePath := pagePath
      operations := playbookOps
      recordedViewport := viewport
      successCount := 1
      failCount := 0
      lastUsed := now
      createdAt := now }
  let d := (getData data0 domain).getD ⟨domain, []⟩
  (playbook, setData data0 domain { d with playbooks := d.playbooks ++ [playbook] })

/-- Exact-match predicate of `find`: `p.name.toLowerCase() === lower`. -/
def exactMatch (lower : String) (p : Playbook) : Bool :=
  strToLower p.name == lower

/-- Partial-match predicate of `find`: `p.name.toLowerCase().includes(lower)`. -/
def partialMatch (lower : String) (p : Playbook) : Bool :=
  strIncludes (strToLower p.name) lower

/-- `find` (playbook-store.ts 225-238): case-insensitive exact match first,
else first case-insensitive substring match, else null; total. -/
def find (data : StoreData) (domain name : String) : Option Playbook :=
  match getData data domain with
  | none => none
  | some d =>
    let lower := strToLower name
    match d.playbooks.find? (exactMatch lower) with
    | some exact => some exact
    | none => d.playbooks.find? (partialMatch lower)

/-- First element satisfying the predicate, with its index. -/
def findIdxAux (p : α → Bool) : List α → ℕ → Option (ℕ × α)
  | [], _ => none
  | x :: xs, i => if p x then some (i, x) else findIdxAux p xs (i + 1)

/-- `find`, additionally reporting the index of the playbook it returns; the
index renders the object reference the TS callers keep for later mutation
(`markSuccess`/`markFailure`). -/
def findWithIdx (data : StoreData) (domain name : String) : Option (ℕ × Playbook) :=
  match getData data domain with
  | none => none
  | some d =>
    let lower := strToLower name
    match findIdxAux (exactMatch lower) d.playbooks 0 with
    | some r => some r
    | none => findIdxAux (partialMatch lower) d.playbooks 0

/-- `getPlaybooks` (playbook-store.ts 243-245). -/
def getPlaybooks (data : StoreData) (domain : String) : List Playbook :=
  ((getData data domain).map PlaybookData.playbooks).getD []

/-- `markSuccess` (playbook-store.ts 250-253) applied to the referenced
playbook object. -/
def markSuccess (now : String) (p : Playbook) : Playbook :=
  { p with successCount := p.successCount + 1, lastUsed := now }

/-- `markFailure` (playbook-store.ts 258-261). -/
def markFailure (now : String) (p : Playbook) : Playbook :=
  { p with failCount := p.failCount + 1, lastUsed := now }

/-- Store-level effect of mutating one playbook object in a domain's list. -/
def updatePlaybookAt (data : StoreData) (domain : String) (i : ℕ)
    (f : Playbook → Playbook) : StoreData :=
  match getData data domain with
  | none => data
  | some d => setData data domain { d with playbooks := listModify f i d.playbooks }

/-- The reliability percentage computed per playbook inside `getSummary`
(playbook-store.ts 277-279): `Math.round(success/(success+fail)*100)` when
any attempt was counted, else 100. -/
def reliability (p : Playbook) : ℤ :=
  if 0 < p.successCount + p.failCount then
    jsRound (((p.successCount : ℚ) / ((p.successCount : ℚ) + (p.failCount : ℚ))) * 100)
  else 100

/-- JS template interpolation of a `number | undefined`. -/
def jsStrNum : Option ℚ → String
  | some q => toString q
  | none => "undefined"

/-- Per-operation description inside `getSummary` (playbook-store.ts 281-291). -/
def opSummary (op : PlaybookOperation) : String :=
  match op.type with
  | .click => "click \"" ++ jsOrD op.selector "element" ++ "\""
  | .type => "type \"" ++ jsStr op.text ++ "\""
  | .press => "press " ++ jsStr op.key
  | .scroll => "scroll " ++ (match op.direction with | some d => d.str | none => "undefined")
  | .wait => "wait " ++ jsStrNum op.duration ++ "ms"
  | .hover => "hover \"" ++ jsOrD op.selector "element" ++ "\""
  | t => t.str

/-- `getSummary` (playbook-store.ts 266-301). -/
def getSummary (data : StoreData) (domain : String) : String :=
  let playbooks := getPlaybooks data domain
  if playbooks.length == 0 then ""
  else
    let header := ["STORED PLAYBOOKS (from previous visits):",
      "Reference a playbook by name to replay the stored sequence.", ""]
    let body := playbooks.map fun p =>
      let opsDesc := String.intercalate " → " (p.operations.map opSummary)
      "- \"" ++ p.name ++ "\" (" ++ toString p.operations.length ++ " steps, "
        ++ toString (reliability p) ++ "% reliable): " ++ opsDesc
    let trailer := ["",
      "To use a playbook, include it in your operations: \x7b\"playbook\": \"playbook name\"\x7d",
      "You can mix playbook references with inline operations in the same batch."]
    String.intercalate "\n" (header ++ body ++ trailer)

/-- The rescaling of one stored operation inside `expand`'s map
(playbook-store.ts 316-332): operations without a position pass through, a
stored position is recomputed against the current viewport. -/
def rescaleOp (currentViewport : Viewport) (op : PlaybookOperation) : PlaybookOperation :=
  match op.position with
  | none => op
  | some pos =>
    let abs := toAbsolute pos currentViewport
    let newPos : RelativePosition :=
      { relX := (abs.x : ℚ) / currentViewport.width
        relY := (abs.y : ℚ) / currentViewport.height
        viewportWidth := currentViewport.width
        viewportHeight := currentViewport.height
        scrollX := pos.scrollX
        scrollY := pos.scrollY }
    { op with position := some newPos }

def rescaleOps (ops : List PlaybookOperation) (currentViewport : Viewport) :
    List PlaybookOperation :=
  ops.map (rescaleOp currentViewport)

/-- `expand` (playbook-store.ts 307-335): resolve by name, rescale every
stored position, return the rescaled copy next to the stored handle. -/
def expand (data : StoreData) (domain playbookName : String)
    (currentViewport : Viewport) : Option (List PlaybookOperation × Playbook) :=
  match find data domain playbookName with
  | none => none
  | some playbook => some (rescaleOps playbook.operations currentViewport, playbook)

/-- One auto-name part (playbook-store.ts 398-408): an explicit description
wins, else a generated text per operation type. -/
def autoNamePart (op : RecordedOperation) : String :=
  if truthyStr op.description then op.description.getD ""
  else
    match op.type with
    | .click => "click " ++ jsOrD (op.selector.map (fun s => s.take 30)) "element"
    | .type => "type \"" ++ jsOrD (op.text.map (fun s => s.take 20)) "" ++ "\""
    | .press => "press " ++ jsOrD op.key "key"
    | .scroll => "scroll " ++ (match op.direction with | some d => d.str | none => "down")
    | .hover => "hover " ++ jsOrD (op.selector.map (fun s => s.take 30)) "element"
    | t => t.str

/-- `autoName` (playbook-store.ts 395-412): join the first three non-wait
operations' descriptions with an arrow separator. -/
def autoName (operations : List RecordedOperation) : String :=
  let parts :=
    ((operations.filter (fun op => op.type != ActionType.wait)).map autoNamePart).take 3
  String.intercalate " → " parts

/-- Loop of `stitchFromLog` (playbook-store.ts 364-386).  The TS `for` loop is
rendered with an explicit scan pointer `start`; `fuel` bounds the number of
iterations structurally and is never exhausted because every iteration
advances `start` by at least one, so `log.length` initial fuel suffices. -/
def stitchLoop (hash : String → String) (now : String) (domain pagePath : String)
    (viewport : Viewport) (log : List RecordedOperation) :
    ℕ → ℕ → StoreData → List Playbook → StoreData × List Playbook
  | 0, _, data, created => (data, created)
  | fuel + 1, start, data, created =>
    if start < log.length then
      let e := min (start + 6) log.length
      let group := (log.drop start).take (e - start)
      if group.length < 2 then
        stitchLoop hash now domain pagePath viewport log fuel (start + 1) data created
      else
        let name := autoName group
        match findWithIdx data domain name with
        | some r =>
          stitchLoop hash now domain pagePath viewport log fuel (start + 1)
            (updatePlaybookAt data domain r.1 (markSuccess now)) created
        | none =>
          let r := record hash now data domain pagePath name group viewport
          stitchLoop hash now domain pagePath viewport log fuel e r.2 (created ++ [r.1])
    else (data, created)

/-- `stitchFromLog` (playbook-store.ts 348-390): greedy scan over the task's
recorded-operation log; candidate windows of up to 6 operations; an existing
playbook sharing the window's auto-name is bumped via `markSuccess`, otherwise
a new playbook is recorded and the pointer jumps past the window.  Returns the
list of playbooks created plus (as the mutated `this.data`) the store. -/
def stitchFromLog (hash : String → String) (now : String) (data : StoreData)
    (domain pagePath : String) (log : List RecordedOperation)
    (viewport : Viewport) : StoreData × List Playbook :=
  if log.length < 2 then (data, [])
  else stitchLoop hash now domain pagePath viewport log log.length 0 data []

-- ── Batch executor (session.ts) ──

structure Bounds where
  x : ℚ
  y : ℚ
  width : ℚ
  height : ℚ
deriving DecidableEq

/-- The fields of page-analyzer's PageElement that executeBatch reads. -/
structure PageElement where
  id : ℕ
  selector : String
  bounds : Bounds
deriving DecidableEq

/-- The Action shape from llm.ts consumed by executeBatch. -/
structure Action where
  type : ActionType
  elementId : Option ℕ := none
  selector : Option String := none
  playbook : Option String := none
  targetElementId : Option ℕ := none
  targetSelector : Option String := none
  sourceX : Option ℚ := none
  sourceY : Option ℚ := none
  targetX : Option ℚ := none
  targetY : Option ℚ := none
  text : Option String := none
  key : Option String := none
  direction : Option Direction := none
  amount : Option ℚ := none
  duration : Option ℚ := none
  reason : Option String := none
  sequenceName : Option String := none
deriving DecidableEq

/-- Result shape of executeAction / executePlaybookOperation. -/
structure ExecResult where
  success : Bool
  error : Option String := none
deriving DecidableEq

/-- The browser-driver capability consumed by the executor, as a
state-passing oracle over an abstract driver state `σ`.  Each evaluate-based
query is a separate field (one per script the executor sends); a rejected
promise is `Except.error`, which by convention leaves the state unchanged at
the caller.  `execAction` abstracts executeAction (action-executor.ts) and
`execPlaybookOp` abstracts executePlaybookOperation's driver work
(session.ts 361-526); both surface only the {success, error} record the
executor branches on. -/
structure Browser (σ : Type) where
  evalHref : σ → Except String (String × σ)
  evalViewportDims : σ → Except String (Viewport × σ)
  evalScrollPos : σ → Except String (ScrollPos × σ)
  evalSelectorExists : String → σ → Except String (Bool × σ)
  evalSettleWatch : ℕ → ℕ → σ → Except String (String × σ)
  execAction : Action → List PageElement → σ → ExecResult × σ
  execPlaybookOp : PlaybookOperation → Viewport → σ → ExecResult × σ

structure DOMSettleOptions where
  timeout : Option ℕ := none
  quietPeriod : Option ℕ := none

/-- `waitForDOMSettle` (dom-settle.ts 35-80): install the mutation watch in
the page via evaluate and await the settle outcome; a rejected evaluate
(navigation destroyed the execution context) is swallowed and the call
returns normally — its type is `σ`, not an `Except`, so no error can
propagate to a caller. -/
def waitForDOMSettle (B : Browser σ) (options : DOMSettleOptions) (s : σ) : σ :=
  let t := options.timeout.getD 2000
  let q := options.quietPeriod.getD 100
  match B.evalSettleWatch t q s with
  | .ok r => r.2
  | .error _ => s

/-- `getViewport` (session.ts 119-128): evaluate, falling back to 1440x900. -/
def getViewport (B : Browser σ) (s : σ) : Viewport × σ :=
  match B.evalViewportDims s with
  | .ok r => r
  | .error _ => (⟨1440, 900⟩, s)

/-- `getScroll` (session.ts 133-142): evaluate, falling back to (0,0). -/
def getScroll (B : Browser σ) (s : σ) : ScrollPos × σ :=
  match B.evalScrollPos s with
  | .ok r => r
  | .error _ => (⟨0, 0⟩, s)

structure BatchActionResult where
  actionDesc : String
  success : Bool
  error : Option String := none
deriving DecidableEq

structure BatchExecutionResult where
  results : List BatchActionResult
  completedCount : ℕ
  terminalAction : Option Action := none
  urlChanged : Bool
  bailReason : Option String := none
  recordedOps : List RecordedOperation
deriving DecidableEq

/-- The RecordedOperation executeBatch appends after a successful concrete
step (session.ts 270-292): selector from the resolved target element with
the action's own selector as fallback, position from the element's bounds
center, else from sourceX/sourceY if both present. -/
def recordOf (actionDesc : String) (elements : List PageElement)
    (viewport : Viewport) (a : Action) (scroll : ScrollPos) : RecordedOperation :=
  let targetElement := match a.elementId with
    | some eid => elements.find? (fun (el : PageElement) => el.id == eid)
    | none => none
  { type := a.type
    selector := jsOrOpt (targetElement.map PageElement.selector) a.selector
    text := a.text
    key := a.key
    direction := a.direction
    amount := a.amount
    duration := a.duration
    description := some actionDesc
    position :=
      match targetElement with
      | some el =>
        some (toRelative (el.bounds.x + el.bounds.width / 2)
          (el.bounds.y + el.bounds.height / 2) viewport scroll)
      | none =>
        match a.sourceX, a.sourceY with
        | some sx, some sy => some (toRelative sx sy viewport scroll)
        | _, _ => none }

/-- Resolution of the next queued action's selector for the pre-flight
next-target check (session.ts 317-322). -/
def nextTargetSelector (elements : List PageElement) (nextAction : Action) :
    Option String :=
  let nextElement := match nextAction.elementId with
    | some eid => elements.find? (fun (el : PageElement) => el.id == eid)
    | none => none
  jsOrOpt (nextElement.map PageElement.selector) nextAction.selector

/-- Outcome of the inner playbook-expansion loop: appended results, driver
state, bail reason, urlChanged flag, and whether a sub-operation failed
(which triggers markFailure on the playbook). -/
structure PlaybookLoopOut (σ : Type) where
  results : List BatchActionResult
  state : σ
  bailReason : Option String
  urlChanged : Bool
  failed : Bool

/-- Inline execution of an expanded playbook's operations
(session.ts 202-235): settle and URL-change check between sub-steps; a
failure or URL change ends the loop with a bail reason. -/
def execPlaybookLoop (B : Browser σ) (viewport : Viewport) (pbName : String)
    (total : ℕ) (currentUrl : String) :
    List PlaybookOperation → ℕ → σ → List BatchActionResult → PlaybookLoopOut σ
  | [], _, s, acc => ⟨acc, s, none, false, false⟩
  | op :: rest, j, s, acc =>
    let opDesc := "[playbook \"" ++ pbName ++ "\" step " ++ toString (j + 1) ++ "/"
      ++ toString total ++ "] " ++ op.type.str ++ " " ++ op.selector.getD ""
    let r := B.execPlaybookOp op viewport s
    let acc1 := acc ++ [⟨opDesc, r.1.success, r.1.error⟩]
    if !r.1.success then
      ⟨acc1, r.2, some ("playbook \"" ++ pbName ++ "\" failed at step "
        ++ toString (j + 1) ++ ": " ++ jsStr r.1.error), false, true⟩
    else if rest.isEmpty then
      ⟨acc1, r.2, none, false, false⟩
    else
      let s1 := waitForDOMSettle B {} r.2
      match B.evalHref s1 with
      | .ok u =>
        if u.1 != currentUrl then
          ⟨acc1, u.2, some ("URL changed during playbook \"" ++ pbName
            ++ "\" at step " ++ toString (j + 1)), true, false⟩
        else execPlaybookLoop B viewport pbName total currentUrl rest (j + 1) u.2 acc1
      | .error _ =>
        ⟨acc1, s1, some ("navigation during playbook \"" ++ pbName ++ "\""), true, false⟩

/-- Outcome carried out of executeBatch's loop: the BatchExecutionResult
fields plus the driver state and the (possibly mark-updated) store. -/
structure BatchOut (σ : Type) where
  results : List BatchActionResult
  recordedOps : List RecordedOperation
  terminalAction : Option Action
  urlChanged : Bool
  bailReason : Option String
  state : σ
  store : Option StoreData

/-- Main loop of executeBatch (session.ts 180-340).  Terminal actions are
returned untouched; a truthy playbook reference (with a store and a truthy
domain) is expanded --- `findWithIdx` here is `find` as called inside
`expand`, additionally yielding the index that renders the
`expansion.playbook` object reference, and its `none` case is exactly
`expand` returning null; concrete actions run through execAction with the
bail-out checks between steps. -/
def executeBatchLoop (B : Browser σ) (formatFn : Action → String) (now : String)
    (elements : List PageElement) (domain : Option String) (viewport : Viewport)
    (currentUrl : String) :
    List Action → σ → Option StoreData → List BatchActionResult →
      List RecordedOperation → BatchOut σ
  | [], s, store, accR, accOps => ⟨accR, accOps, none, false, none, s, store⟩
  | a :: rest, s, store, accR, accOps =>
    if a.type == ActionType.done || a.type == ActionType.failed then
      ⟨accR, accOps, some a, false, none, s, store⟩
    else if truthyStr a.playbook && store.isSome && truthyStr domain then
      let pbName := a.playbook.getD ""
      let sd := store.getD []
      let dom := domain.getD ""
      match findWithIdx sd dom pbName with
      | none =>
        -- expand returned null: hallucinated playbook name, skip and continue
        executeBatchLoop B formatFn now elements domain viewport currentUrl rest s store
          (accR ++ [⟨"Playbook \"" ++ pbName ++ "\" (not found, skipped)", false,
            some "playbook not found"⟩]) accOps
      | some ip =>
        let ops := rescaleOps ip.2.operations viewport
        let out := execPlaybookLoop B viewport pbName ops.length currentUrl ops 0 s accR
        match out.bailReason with
        | some _ =>
          let store1 := if out.failed
            then some (updatePlaybookAt sd dom ip.1 (markFailure now))
            else some sd
          ⟨out.results, accOps, none, out.urlChanged, out.bailReason, out.state, store1⟩
        | none =>
          executeBatchLoop B formatFn now elements domain viewport currentUrl rest
            out.state (some (updatePlaybookAt sd dom ip.1 (markSuccess now)))
            out.results accOps
    else
      let actionDesc := formatFn a
      let r := B.execAction a elements s
      let accR1 := accR ++ [⟨actionDesc, r.1.success, r.1.error⟩]
      if !r.1.success then
        ⟨accR1, accOps, none, false, some ("action failed: " ++ jsStr r.1.error),
          r.2, store⟩
      else
        let sc := getScroll B r.2
        let accOps1 := accOps ++ [recordOf actionDesc elements viewport a sc.1]
        match rest with
        | [] => ⟨accR1, accOps1, none, false, none, sc.2, store⟩
        | nextAction :: _ =>
          let s1 := waitForDOMSettle B {} sc.2
          match B.evalHref s1 with
          | .error _ =>
            ⟨accR1, accOps1, none, true, some "navigation detected", s1, store⟩
          | .ok u =>
            if u.1 != currentUrl then
              ⟨accR1, accOps1, none, true, some "URL changed", u.2, store⟩
            else
              if nextAction.type != ActionType.done
                  && nextAction.type != ActionType.failed
                  && !(truthyStr nextAction.playbook) then
                let nextSelector := nextTargetSelector elements nextAction
                if truthyStr nextSelector then
                  let sel := nextSelector.getD ""
                  match B.evalSelectorExists sel u.2 with
                  | .ok ex =>
                    if !ex.1 then
                      ⟨accR1, accOps1, none, false,
                        some ("next target missing: " ++ sel), ex.2, store⟩
                    else
                      executeBatchLoop B formatFn now elements domain viewport
                        currentUrl rest ex.2 store accR1 accOps1
                  | .error _ =>
                    ⟨accR1, accOps1, none, true,
                      some "element check failed (page may have navigated)", u.2, store⟩
                else
                  executeBatchLoop B formatFn now elements domain viewport currentUrl
                    rest u.2 store accR1 accOps1
              else
                executeBatchLoop B formatFn now elements domain viewport currentUrl
                  rest u.2 store accR1 accOps1

/-- `executeBatch` (session.ts 149-355).  The documentWriter and logging
callbacks influence only transcripts and are omitted; `formatFn` stands for
the formatAction / formatVisionAction description formatter from llm.ts and
`now` for `new Date().toISOString()`.  Returns the BatchExecutionResult
together with the final driver state and the (mutated) store. -/
def executeBatch (B : Browser σ) (formatFn : Action → String) (now : String)
    (actions : List Action) (elements : List PageElement)
    (store : Option StoreData) (domain : Option String) (s0 : σ) :
    BatchExecutionResult × σ × Option StoreData :=
  let cu := match B.evalHref s0 with
    | .ok r => r
    | .error _ => ("", s0)
  let vp := getViewport B cu.2
  let out := executeBatchLoop B formatFn now elements domain vp.1 cu.1 actions vp.2
    store [] []
  (⟨out.results, out.results.length, out.terminalAction, out.urlChanged,
    out.bailReason, out.recordedOps⟩, out.state, out.store)

-- ── Auxiliary definitions for the statements and witnesses ──

/-- The structural content of one recorded operation that feeds generateId:
its type, selector, text and key. -/
def structuralKey (op : RecordedOperation) :
    ActionType × Option String × Option String × Option String :=
  (op.type, op.selector, op.text, op.key)

/-- The per-domain view of each stored playbook's operations field, used to
state that replay bookkeeping never touches stored operation sequences. -/
def storeOps (s : Option StoreData) (domain : String) :
    Option (List (List PlaybookOperation)) :=
  s.map (fun d => (getPlaybooks d domain).map Playbook.operations)

/-- The pre-flight next-target check (session.ts 316-339) passes from state
`s` to `s'`: either it does not apply (terminal or playbook next action, or
no truthy selector) and the state is unchanged, or the next selector still
resolves in the page. -/
def NextCheckOk {σ : Type} (B : Browser σ) (elements : List PageElement)
    (s : σ) (nextAction : Action) (s' : σ) : Prop :=
  if (nextAction.type != ActionType.done && nextAction.type != ActionType.failed
        && !(truthyStr nextAction.playbook))
      && truthyStr (nextTargetSelector elements nextAction) then
    B.evalSelectorExists ((nextTargetSelector elements nextAction).getD "") s
      = .ok (true, s')
  else s' = s

/-- A clean run of a prefix of concrete steps through executeBatch's loop:
every listed action is non-terminal and not a playbook reference, executes
successfully, and passes the settle / URL-stability / next-target checks
against the URL captured at batch start.  `next` is the queued action that
follows the prefix (consulted by the last step's next-target check); the
indices track the results and recorded operations appended and the driver
state reached. -/
inductive CleanSteps {σ : Type} (B : Browser σ) (formatFn : Action → String)
    (elements : List PageElement) (viewport : Viewport) (currentUrl : String) :
    σ → List Action → Action → List BatchActionResult →
      List RecordedOperation → σ → Prop
  | nil (s : σ) (next : Action) :
      CleanSteps B formatFn elements viewport currentUrl s [] next [] [] s
  | cons (s : σ) (a : Action) (pre : List Action) (next : Action)
      (err : Option String) (scr : ScrollPos) (s₁ s₂ s₃ s₄ s₅ sEnd : σ)
      (results : List BatchActionResult) (recOps : List RecordedOperation)
      (hterm1 : a.type ≠ ActionType.done) (hterm2 : a.type ≠ ActionType.failed)
      (hpb : truthyStr a.playbook = false)
      (hexec : B.execAction a elements s = (⟨true, err⟩, s₁))
      (hscroll : getScroll B s₁ = (scr, s₂))
      (hsettle : waitForDOMSettle B {} s₂ = s₃)
      (hhref : B.evalHref s₃ = .ok (currentUrl, s₄))
      (hnext : NextCheckOk B elements s₄ (pre.headD next) s₅)
      (htail : CleanSteps B formatFn elements viewport currentUrl s₅ pre next
        results recOps sEnd) :
      CleanSteps B formatFn elements viewport currentUrl s (a :: pre) next
        (⟨formatFn a, true, err⟩ :: results)
        (recordOf (formatFn a) elements viewport a scr :: recOps) sEnd

/-- A driver whose every evaluate call rejects (the page navigated away,
destroying the execution context). -/
def rejectingBrowser : Browser Unit :=
  { evalHref := fun _ => .error "Execution context was destroyed"
    evalViewportDims := fun _ => .error "Execution context was destroyed"
    evalScrollPos := fun _ => .error "Execution context was destroyed"
    evalSelectorExists := fun _ _ => .error "Execution context was destroyed"
    evalSettleWatch := fun _ _ _ => .error "Execution context was destroyed"
    execAction := fun _ _ s => (⟨false, some "Execution context was destroyed"⟩, s)
    execPlaybookOp := fun _ _ s => (⟨false, some "Execution context was destroyed"⟩, s) }

/-- A driver for which every evaluate succeeds but every action execution
fails. -/
def failingActionBrowser : Browser Unit :=
  { evalHref := fun s => .ok ("https://site.example/", s)
    evalViewportDims := fun s => .ok (⟨1000, 800⟩, s)
    evalScrollPos := fun s => .ok (⟨0, 0⟩, s)
    evalSelectorExists := fun _ s => .ok (true, s)
    evalSettleWatch := fun _ _ s => .ok ("", s)
    execAction := fun _ _ s => (⟨false, some "element not interactable"⟩, s)
    execPlaybookOp := fun _ _ s => (⟨false, some "element not interactable"⟩, s) }

/-- A driver over a step counter whose page URL changes after the first
executed action (the click navigated). -/
def navigatingBrowser : Browser ℕ :=
  { evalHref := fun n =>
      .ok (if n == 0 then "https://site.example/" else "https://site.example/next", n)
    evalViewportDims := fun n => .ok (⟨1000, 800⟩, n)
    evalScrollPos := fun n => .ok (⟨0, 0⟩, n)
    evalSelectorExists := fun _ n => .ok (true, n)
    evalSettleWatch := fun _ _ n => .ok ("", n)
    execAction := fun _ _ n => (⟨true, none⟩, n + 1)
    execPlaybookOp := fun _ _ n => (⟨true, none⟩, n + 1) }

def wClickA : Action := { type := .click, selector := some "#a" }

def wClickB : Action := { type := .click, selector := some "#b" }

def wClickC : Action := { type := .click, selector := some "#c" }

def wPb : Playbook :=
  { id := "abc123def456"
    name := "login form"
    domain := "site.example"
    pagePath := "/"
    operations := [{ type := .click, selector := some "#login" },
      { type := .type, selector := some "#user", text := some "bob" }]
    recordedViewport := ⟨1440, 900⟩
    successCount := 1
    failCount := 0
    lastUsed := "2024-01-01"
    createdAt := "2024-01-01" }

def wStore : StoreData := [("site.example", ⟨"site.example", [wPb]⟩)]

def wPbAction : Action := { type := .click, playbook := some "nonexistent" }

/-- A four-operation session log with distinct step descriptions. -/
def cLog : List RecordedOperation :=
  [{ type := .click, selector := some "#a", description := some "a" },
   { type := .click, selector := some "#b", description := some "b" },
   { type := .click, selector := some "#c", description := some "c" },
   { type := .click, selector := some "#d", description := some "d" }]

/-- A two-operation session log. -/
def cLog2 : List RecordedOperation :=
  [{ type := .click, selector := some "#a", description := some "open menu" },
   { type := .click, selector := some "#b", description := some "pick item" }]

def wOps1 : List RecordedOperation :=
  [{ type := .click, selector := some "#a", description := some "click the a box" },
   { type := .type, selector := some "#a", text := some "x" }]

def wOps2 : List RecordedOperation :=
  [{ type := .click, selector := some "#a", description := some "press a",
     position := some ⟨1/2, 1/2, 100, 100, 0, 0⟩ },
   { type := .type, selector := some "#a", text := some "x",
     description := some "enter x" }]

-- ── Theorems ──

/-- Half-up rounding moves a rational by at most 1. -/
theorem jsRound_sub_abs_le (q : ℚ) : |(jsRound q : ℚ) - q| ≤ 1 := by
  have h1 : ((⌊q + 1/2⌋ : ℤ) : ℚ) ≤ q + 1/2 := Int.floor_le _
  have h2 : q + 1/2 < (⌊q + 1/2⌋ : ℤ) + 1 := Int.lt_floor_add_one _
  rw [abs_le]
  constructor <;> [skip; skip] <;> simp only [jsRound] <;> linarith

/-- Reduction of `find` once the domain's data is known. -/
theorem find_of_getData (data : StoreData) (domain name : String) (d : PlaybookData)
    (hd : getData data domain = some d) :
    find data domain name =
      (match d.playbooks.find? (exactMatch (strToLower name)) with
       | some e => some e
       | none => d.playbooks.find? (partialMatch (strToLower name))) := by
  unfold find
  rw [hd]

/-- First-match characterization of `List.find?`. -/
theorem find?_some_split (p : α → Bool) (l : List α) (x : α)
    (h : l.find? p = some x) :
    p x = true ∧ ∃ l₁ l₂, l = l₁ ++ x :: l₂ ∧ ∀ y ∈ l₁, p y = false := by
  induction l with
  | nil => simp [List.find?] at h
  | cons a l ih =>
    by_cases hpa : p a
    · rw [List.find?_cons_of_pos _ hpa] at h
      cases h
      exact ⟨hpa, [], l, rfl, by simp⟩
    · rw [List.find?_cons_of_neg _ (by simpa using hpa)] at h
      obtain ⟨hx, l₁, l₂, rfl, hmiss⟩ := ih h
      refine ⟨hx, a :: l₁, l₂, rfl, ?_⟩
      intro y hy
      rcases List.mem_cons.mp hy with rfl | hy
      · simpa using hpa
      · exact hmiss y hy

/-- C5: Coordinate round-trip — for every viewport with positive width and
height and every absolute point inside it, `toAbsolute (toRelative P V) V`
returns P up to ±1 pixel in each coordinate.  (JS float arithmetic is
modelled as exact rational arithmetic.) -/
theorem toAbsolute_toRelative_roundtrip (absX absY : ℚ) (V : Viewport)
    (scroll : ScrollPos) (hw : 0 < V.width) (hh : 0 < V.height)
    (hx0 : 0 ≤ absX) (hx1 : absX ≤ V.width)
    (hy0 : 0 ≤ absY) (hy1 : absY ≤ V.height) :
    |((toAbsolute (toRelative absX absY V scroll) V).x : ℚ) - absX| ≤ 1 ∧
    |((toAbsolute (toRelative absX absY V scroll) V).y : ℚ) - absY| ≤ 1 := by
  have hwx : absX / V.width * V.width = absX := div_mul_cancel₀ absX (ne_of_gt hw)
  have hhy : absY / V.height * V.height = absY := div_mul_cancel₀ absY (ne_of_gt hh)
  constructor
  · simpa [toAbsolute, toRelative, hwx] using jsRound_sub_abs_le absX
  · simpa [toAbsolute, toRelative, hhy] using jsRound_sub_abs_le absY

theorem toAbsolute_toRelative_roundtrip_witness :
    |((toAbsolute (toRelative 3 4 ⟨10, 20⟩ ⟨0, 0⟩) ⟨10, 20⟩).x : ℚ) - 3| ≤ 1 ∧
    |((toAbsolute (toRelative 3 4 ⟨10, 20⟩ ⟨0, 0⟩) ⟨10, 20⟩).y : ℚ) - 4| ≤ 1 :=
  toAbsolute_toRelative_roundtrip 3 4 ⟨10, 20⟩ ⟨0, 0⟩ (by norm_num) (by norm_num)
    (by norm_num) (by norm_num) (by norm_num) (by norm_num)

/-- The id `record` assigns is `generateId` of the operations. -/
theorem record_fst_id (hash : String → String) (now : String) (data : StoreData)
    (domain pagePath name : String) (ops : List RecordedOperation) (vp : Viewport) :
    (record hash now data domain pagePath name ops vp).1.id = generateId hash ops := by
  unfold record
  simp only []

/-- C6: Deterministic playbook identity — two recorded sequences agreeing on
every operation's type, selector, text and key receive the same playbook id
from `record`, regardless of timestamps, names, paths, store contents,
descriptions, positions or any other field. -/
theorem record_id_deterministic (hash : String → String)
    (now₁ now₂ : String) (data₁ data₂ : StoreData)
    (domain₁ domain₂ pagePath₁ pagePath₂ name₁ name₂ : String)
    (ops₁ ops₂ : List RecordedOperation) (vp₁ vp₂ : Viewport)
    (h : ops₁.map structuralKey = ops₂.map structuralKey) :
    (record hash now₁ data₁ domain₁ pagePath₁ name₁ ops₁ vp₁).1.id =
      (record hash now₂ data₂ domain₂ pagePath₂ name₂ ops₂ vp₂).1.id := by
  rw [record_fst_id, record_fst_id]
  unfold generateId
  have hmap : ops₁.map (fun op =>
      op.type.str ++ ":" ++ op.selector.getD "" ++ ":" ++ op.text.getD ""
        ++ ":" ++ op.key.getD "") =
      ops₂.map (fun op =>
      op.type.str ++ ":" ++ op.selector.getD "" ++ ":" ++ op.text.getD ""
        ++ ":" ++ op.key.getD "") := by
    have e : ∀ ops : List RecordedOperation, ops.map (fun op =>
        op.type.str ++ ":" ++ op.selector.getD "" ++ ":" ++ op.text.getD ""
          ++ ":" ++ op.key.getD "") =
        (ops.map structuralKey).map (fun k =>
          k.1.str ++ ":" ++ k.2.1.getD "" ++ ":" ++ k.2.2.1.getD ""
            ++ ":" ++ k.2.2.2.getD "") := by
      intro ops
      rw [List.map_map]
      rfl
    rw [e, e, h]
  rw [hmap]

theorem record_id_deterministic_witness :
    (record (fun s => s) "2024-01-01" [] "shop.example" "/" "fill search" wOps1
        ⟨1440, 900⟩).1.id =
      (record (fun s => s) "2024-02-02" [("shop.example", ⟨"shop.example", []⟩)]
        "shop.example" "/cart" "search again" wOps2 ⟨1280, 800⟩).1.id :=
  record_id_deterministic (fun s => s) "2024-01-01" "2024-02-02" []
    [("shop.example", ⟨"shop.example", []⟩)] "shop.example" "shop.example"
    "/" "/cart" "fill search" "search again" wOps1 wOps2 ⟨1440, 900⟩ ⟨1280, 800⟩
    (by simp [wOps1, wOps2, structuralKey])

/-- C10: Every playbook created by `record` starts with successCount = 1 and
failCount = 0, so it already has one counted attempt and `getSummary`'s
reliability computes 100 through the positive-attempts branch; the
zero-attempts branch cannot apply to it. -/
theorem record_initial_reliability (hash : String → String) (now : String)
    (data : StoreData) (domain pagePath name : String)
    (ops : List RecordedOperation) (viewport : Viewport) :
    (record hash now data domain pagePath name ops viewport).1.successCount = 1 ∧
    (record hash now data domain pagePath name ops viewport).1.failCount = 0 ∧
    0 < (record hash now data domain pagePath name ops viewport).1.successCount
      + (record hash now data domain pagePath name ops viewport).1.failCount ∧
    reliability (record hash now data domain pagePath name ops viewport).1 = 100 := by
  have hs : (record hash now data domain pagePath name ops viewport).1.successCount = 1 := rfl
  have hf : (record hash now data domain pagePath name ops viewport).1.failCount = 0 := rfl
  refine ⟨hs, hf, ?_, ?_⟩
  · rw [hs, hf]
    norm_num
  · unfold reliability jsRound
    rw [hs, hf]
    norm_num

/-- C9: The settle detector never propagates driver errors — when the
evaluate call that installs/queries the mutation watch rejects,
`waitForDOMSettle` swallows the failure and returns normally (its result type
is the plain driver state, so no error can escape). -/
theorem waitForDOMSettle_swallows_rejection {σ : Type} (B : Browser σ)
    (options : DOMSettleOptions) (s : σ) (e : String)
    (h : B.evalSettleWatch (options.timeout.getD 2000)
      (options.quietPeriod.getD 100) s = .error e) :
    waitForDOMSettle B options s = s := by
  unfold waitForDOMSettle
  simp only [h]

theorem waitForDOMSettle_swallows_rejection_witness :
    waitForDOMSettle rejectingBrowser {} () = () :=
  waitForDOMSettle_swallows_rejection rejectingBrowser {} ()
    "Execution context was destroyed" rfl

/-- C7: `find` lookup order — with no data for the domain it returns null;
otherwise it returns the first playbook whose lowercased name equals the
lowercased query, else the first whose lowercased name contains it, else
null.  `find` is a total function, so it never throws. -/
theorem find_lookup_order (data : StoreData) (domain name : String) :
    (getData data domain = none → find data domain name = none) ∧
    (∀ d, getData data domain = some d →
      (∀ pb, find data domain name = some pb →
        (exactMatch (strToLower name) pb = true ∧
          ∃ l₁ l₂, d.playbooks = l₁ ++ pb :: l₂ ∧
            ∀ q ∈ l₁, exactMatch (strToLower name) q = false) ∨
        ((∀ q ∈ d.playbooks, exactMatch (strToLower name) q = false) ∧
          partialMatch (strToLower name) pb = true ∧
          ∃ l₁ l₂, d.playbooks = l₁ ++ pb :: l₂ ∧
            ∀ q ∈ l₁, partialMatch (strToLower name) q = false)) ∧
      (find data domain name = none →
        ∀ q ∈ d.playbooks,
          exactMatch (strToLower name) q = false ∧ partialMatch (strToLower name) q = false)) := by
  constructor
  · intro hnone
    unfold find
    rw [hnone]
  · intro d hd
    constructor
    · intro pb hpb
      rw [find_of_getData data domain name d hd] at hpb
      rcases hexact : d.playbooks.find? (exactMatch (strToLower name)) with _ | q
      · rw [hexact] at hpb
        right
        obtain ⟨hq, l₁, l₂, hsplit, hmiss⟩ := find?_some_split _ _ _ hpb
        refine ⟨?_, hq, l₁, l₂, hsplit, hmiss⟩
        intro q hq'
        simpa using List.find?_eq_none.mp hexact q hq'
      · rw [hexact] at hpb
        cases hpb
        left
        exact find?_some_split _ _ _ hexact
    · intro hnone q hq
      rw [find_of_getData data domain name d hd] at hnone
      rcases hexact : d.playbooks.find? (exactMatch (strToLower name)) with _ | x
      · rw [hexact] at hnone
        constructor
        · simpa using List.find?_eq_none.mp hexact q hq
        · simpa using List.find?_eq_none.mp hnone q hq
      · rw [hexact] at hnone
        cases hnone

theorem find_lookup_order_witness :
    find ([] : StoreData) "shop.example" "login" = none :=
  (find_lookup_order [] "shop.example" "login").1 rfl

/-- Unfolding of executeBatch's loop at a failing concrete head action. -/
theorem executeBatchLoop_fail_head {σ : Type} (B : Browser σ)
    (formatFn : Action → String) (now : String) (elements : List PageElement)
    (domain : Option String) (vp : Viewport) (url : String)
    (a : Action) (rest : List Action) (s sF : σ) (e : Option String)
    (store : Option StoreData) (accR : List BatchActionResult)
    (accOps : List RecordedOperation)
    (ht1 : a.type ≠ ActionType.done) (ht2 : a.type ≠ ActionType.failed)
    (hp : truthyStr a.playbook = false)
    (hfail : B.execAction a elements s = (⟨false, e⟩, sF)) :
    executeBatchLoop B formatFn now elements domain vp url (a :: rest) s store
        accR accOps =
      ⟨accR ++ [⟨formatFn a, false, e⟩], accOps, none, false,
        some ("action failed: " ++ jsStr e), sF, store⟩ := by
  have hb1 : (a.type == ActionType.done || a.type == ActionType.failed) = false := by
    simp [ht1, ht2]
  have hb2 : (truthyStr a.playbook && store.isSome && truthyStr domain) = false := by
    simp [hp]
  simp only [executeBatchLoop, hb1, hb2, hfail, Bool.false_eq_true, if_false]
  simp

/-- Unfolding of the loop at a clean non-final concrete head action: the
step succeeds, the URL is unchanged and the next-target check passes, so the
loop continues on the remaining actions with the step's result and recorded
operation appended. -/
theorem executeBatchLoop_clean_head {σ : Type} (B : Browser σ)
    (formatFn : Action → String) (now : String) (elements : List PageElement)
    (domain : Option String) (vp : Viewport) (url : String)
    (a nx : Action) (tl : List Action) (s s₁ s₂ s₃ s₄ s₅ : σ)
    (err : Option String) (scr : ScrollPos)
    (store : Option StoreData) (accR : List BatchActionResult)
    (accOps : List RecordedOperation)
    (ht1 : a.type ≠ ActionType.done) (ht2 : a.type ≠ ActionType.failed)
    (hp : truthyStr a.playbook = false)
    (hexec : B.execAction a elements s = (⟨true, err⟩, s₁))
    (hscroll : getScroll B s₁ = (scr, s₂))
    (hsettle : waitForDOMSettle B {} s₂ = s₃)
    (hhref : B.evalHref s₃ = .ok (url, s₄))
    (hnext : NextCheckOk B elements s₄ nx s₅) :
    executeBatchLoop B formatFn now elements domain vp url (a :: nx :: tl) s store
        accR accOps =
      executeBatchLoop B formatFn now elements domain vp url (nx :: tl) s₅ store
        (accR ++ [⟨formatFn a, true, err⟩])
        (accOps ++ [recordOf (formatFn a) elements vp a scr]) := by
  have hb1 : (a.type == ActionType.done || a.type == ActionType.failed) = false := by
    simp [ht1, ht2]
  have hb2 : (truthyStr a.playbook && store.isSome && truthyStr domain) = false := by
    simp [hp]
  unfold NextCheckOk at hnext
  simp only [executeBatchLoop, hb1, hb2, hexec, hscroll, hsettle, hhref,
    Bool.false_eq_true, if_false, bne_self_eq_false]
  by_cases hA : (nx.type != ActionType.done && nx.type != ActionType.failed
      && !(truthyStr nx.playbook)) = true
  · by_cases hD : truthyStr (nextTargetSelector elements nx) = true
    · rw [if_pos (by rw [hA, hD]; decide)] at hnext
      simp [hA, hD, hnext]
    · have hD' : truthyStr (nextTargetSelector elements nx) = false := by
        simpa using hD
      rw [if_neg (by simp [hD'])] at hnext
      subst hnext
      simp [hA, hD']
  · have hA' : (nx.type != ActionType.done && nx.type != ActionType.failed
        && !(truthyStr nx.playbook)) = false := by
      simpa using hA
    rw [if_neg (by simp [hA'])] at hnext
    subst hnext
    simp [hA']

/-- Unfolding of the loop at a successful non-final concrete head action
after which the page URL differs from the one captured at batch start. -/
theorem executeBatchLoop_url_changed_head {σ : Type} (B : Browser σ)
    (formatFn : Action → String) (now : String) (elements : List PageElement)
    (domain : Option String) (vp : Viewport) (url : String)
    (a nx : Action) (tl : List Action) (s s₁ s₂ s₃ s₄ : σ)
    (err : Option String) (scr : ScrollPos) (u' : String)
    (store : Option StoreData) (accR : List BatchActionResult)
    (accOps : List RecordedOperation)
    (ht1 : a.type ≠ ActionType.done) (ht2 : a.type ≠ ActionType.failed)
    (hp : truthyStr a.playbook = false)
    (hexec : B.execAction a elements s = (⟨true, err⟩, s₁))
    (hscroll : getScroll B s₁ = (scr, s₂))
    (hsettle : waitForDOMSettle B {} s₂ = s₃)
    (hhref : B.evalHref s₃ = .ok (u', s₄))
    (hne : u' ≠ url) :
    executeBatchLoop B formatFn now elements domain vp url (a :: nx :: tl) s store
        accR accOps =
      ⟨accR ++ [⟨formatFn a, true, err⟩],
        accOps ++ [recordOf (formatFn a) elements vp a scr],
        none, true, some "URL changed", s₄, store⟩ := by
  have hb1 : (a.type == ActionType.done || a.type == ActionType.failed) = false := by
    simp [ht1, ht2]
  have hb2 : (truthyStr a.playbook && store.isSome && truthyStr domain) = false := by
    simp [hp]
  have hbne : (u' != url) = true := bne_iff_ne.mpr hne
  simp only [executeBatchLoop, hb1, hb2, hexec, hscroll, hsettle, hhref,
    Bool.false_eq_true, if_false, hbne, if_true]
  simp

/-- Every result produced by a clean prefix is a success entry. -/
theorem cleanSteps_results_success {σ : Type} {B : Browser σ}
    {formatFn : Action → String} {elements : List PageElement} {viewport : Viewport}
    {currentUrl : String} {s : σ} {pre : List Action} {next : Action}
    {results : List BatchActionResult} {recOps : List RecordedOperation} {s' : σ}
    (h : CleanSteps B formatFn elements viewport currentUrl s pre next results
      recOps s') :
    ∀ r ∈ results, r.success = true := by
  induction h with
  | nil s next => intro r hr; simp at hr
  | cons s a pre next err scr s₁ s₂ s₃ s₄ s₅ sEnd results recOps ht1 ht2 hpb hexec
      hscroll hsettle hhref hnext htail ih =>
    intro r hr
    rcases List.mem_cons.mp hr with rfl | hr
    · rfl
    · exact ih r hr

/-- A clean prefix drives the loop to its final state with its results and
recorded operations appended, leaving the remaining queue to run. -/
theorem executeBatchLoop_clean_steps {σ : Type} {B : Browser σ}
    {formatFn : Action → String} (now : String) {elements : List PageElement}
    (domain : Option String) {vp : Viewport} {url : String}
    {s sPre : σ} {pre : List Action} {next : Action}
    {results : List BatchActionResult} {recOps : List RecordedOperation}
    (hpre : CleanSteps B formatFn elements vp url s pre next results recOps sPre) :
    ∀ (tl : List Action) (store : Option StoreData)
      (accR : List BatchActionResult) (accOps : List RecordedOperation),
      executeBatchLoop B formatFn now elements domain vp url (pre ++ next :: tl) s
          store accR accOps =
        executeBatchLoop B formatFn now elements domain vp url (next :: tl) sPre
          store (accR ++ results) (accOps ++ recOps) := by
  induction hpre with
  | nil s next => intro tl store accR accOps; simp
  | cons s a pre next err scr s₁ s₂ s₃ s₄ s₅ sEnd results recOps ht1 ht2 hpb hexec
      hscroll hsettle hhref hnext htail ih =>
    intro tl store accR accOps
    cases pre with
    | nil =>
      simp only [List.nil_append, List.cons_append]
      rw [executeBatchLoop_clean_head B formatFn now elements domain vp url a next tl
        s s₁ s₂ s₃ s₄ s₅ err scr store accR accOps ht1 ht2 hpb hexec hscroll hsettle
        hhref (by simpa using hnext)]
      have h2 := ih tl store (accR ++ [⟨formatFn a, true, err⟩])
        (accOps ++ [recordOf (formatFn a) elements vp a scr])
      simp only [List.nil_append] at h2
      rw [h2]
      simp
    | cons b pre' =>
      simp only [List.cons_append]
      rw [executeBatchLoop_clean_head B formatFn now elements domain vp url a b
        (pre' ++ next :: tl) s s₁ s₂ s₃ s₄ s₅ err scr store accR accOps ht1 ht2 hpb
        hexec hscroll hsettle hhref (by simpa using hnext)]
      have h2 := ih tl store (accR ++ [⟨formatFn a, true, err⟩])
        (accOps ++ [recordOf (formatFn a) elements vp a scr])
      simp only [List.cons_append] at h2
      rw [h2]
      simp

/-- C2: Bail on operation failure — when the actions before step `a` run
cleanly and `a` is a concrete operation whose execution fails with error `e`,
executeBatch stops right after `a`: the results are exactly the prefix's
successful entries plus `a`'s failed entry, no queued action after `a` is
attempted, and the bail reason is "action failed: " followed by the error. -/
theorem executeBatch_bail_on_failure {σ : Type} {B : Browser σ}
    {formatFn : Action → String} (now : String) (store : Option StoreData)
    (domain : Option String) {elements : List PageElement}
    {pre : List Action} (post : List Action) {a : Action} {e : Option String}
    {s₀ s₁ s₂ sPre sF : σ} {url : String} {vp : Viewport}
    {results : List BatchActionResult} {recOps : List RecordedOperation}
    (h₀ : B.evalHref s₀ = .ok (url, s₁))
    (h₁ : getViewport B s₁ = (vp, s₂))
    (hpre : CleanSteps B formatFn elements vp url s₂ pre a results recOps sPre)
    (ht1 : a.type ≠ ActionType.done) (ht2 : a.type ≠ ActionType.failed)
    (hp : truthyStr a.playbook = false)
    (hfail : B.execAction a elements sPre = (⟨false, e⟩, sF)) :
    (executeBatch B formatFn now (pre ++ a :: post) elements store domain s₀).1 =
      { results := results ++ [⟨formatFn a, false, e⟩]
        completedCount := results.length + 1
        terminalAction := none
        urlChanged := false
        bailReason := some ("action failed: " ++ jsStr e)
        recordedOps := recOps } ∧
    ∀ r ∈ results, r.success = true := by
  refine ⟨?_, cleanSteps_results_success hpre⟩
  unfold executeBatch
  simp only [h₀]
  rw [h₁]
  rw [executeBatchLoop_clean_steps now domain hpre post store [] []]
  rw [executeBatchLoop_fail_head B formatFn now elements domain vp url a post sPre sF
    e store ([] ++ results) ([] ++ recOps) ht1 ht2 hp hfail]
  simp

/-- C3: Bail on navigation — when the actions before step `a` run cleanly,
`a` is a successful non-final concrete operation, and the URL read after the
settle differs from the URL captured at batch start, executeBatch stops with
urlChanged = true and bail reason "URL changed"; no queued action after `a`
is attempted. -/
theorem executeBatch_bail_on_navigation {σ : Type} {B : Browser σ}
    {formatFn : Action → String} (now : String) (store : Option StoreData)
    (domain : Option String) {elements : List PageElement}
    {pre : List Action} {a nx : Action} (tl : List Action)
    {err : Option String} {scr : ScrollPos} {u' url : String} {vp : Viewport}
    {s₀ s₁ s₂ sPre t₁ t₂ t₃ t₄ : σ}
    {results : List BatchActionResult} {recOps : List RecordedOperation}
    (h₀ : B.evalHref s₀ = .ok (url, s₁))
    (h₁ : getViewport B s₁ = (vp, s₂))
    (hpre : CleanSteps B formatFn elements vp url s₂ pre a results recOps sPre)
    (ht1 : a.type ≠ ActionType.done) (ht2 : a.type ≠ ActionType.failed)
    (hp : truthyStr a.playbook = false)
    (hexec : B.execAction a elements sPre = (⟨true, err⟩, t₁))
    (hscroll : getScroll B t₁ = (scr, t₂))
    (hsettle : waitForDOMSettle B {} t₂ = t₃)
    (hhref : B.evalHref t₃ = .ok (u', t₄))
    (hne : u' ≠ url) :
    (executeBatch B formatFn now (pre ++ a :: nx :: tl) elements store domain s₀).1 =
      { results := results ++ [⟨formatFn a, true, err⟩]
        completedCount := results.length + 1
        terminalAction := none
        urlChanged := true
        bailReason := some "URL changed"
        recordedOps := recOps ++ [recordOf (formatFn a) elements vp a scr] } ∧
    ∀ r ∈ results ++ [⟨formatFn a, true, err⟩], r.success = true := by
  constructor
  · unfold executeBatch
    simp only [h₀]
    rw [h₁]
    rw [executeBatchLoop_clean_steps now domain hpre (nx :: tl) store [] []]
    rw [executeBatchLoop_url_changed_head B formatFn now elements domain vp url a nx
      tl sPre t₁ t₂ t₃ t₄ err scr u' store ([] ++ results) ([] ++ recOps) ht1 ht2 hp
      hexec hscroll hsettle hhref hne]
    simp
  · intro r hr
    rcases List.mem_append.mp hr with hr | hr
    · exact cleanSteps_results_success hpre r hr
    · simp at hr
      subst hr
      rfl

theorem executeBatch_bail_on_failure_witness :
    (executeBatch failingActionBrowser (fun a => a.type.str) "t"
        [wClickB, wClickC] [] none none ()).1 =
      { results := [⟨"click", false, some "element not interactable"⟩]
        completedCount := 1
        terminalAction := none
        urlChanged := false
        bailReason := some "action failed: element not interactable"
        recordedOps := [] } ∧
    ∀ r ∈ ([] : List BatchActionResult), r.success = true :=
  executeBatch_bail_on_failure "t" none none [wClickC] rfl rfl
    (CleanSteps.nil () wClickB) (by decide) (by decide) rfl rfl

theorem executeBatch_bail_on_navigation_witness :
    (executeBatch navigatingBrowser (fun a => a.type.str) "t"
        [wClickA, wClickB, wClickC] [] none none 0).1 =
      { results := [⟨"click", true, none⟩]
        completedCount := 1
        terminalAction := none
        urlChanged := true
        bailReason := some "URL changed"
        recordedOps := [⟨.click, some "#a", none, none, none, none, none, none, some "click"⟩] } ∧
    ∀ r ∈ [(⟨"click", true, none⟩ : BatchActionResult)], r.success = true := by
  have h₀ : navigatingBrowser.evalHref 0 = .ok ("https://site.example/", 0) := rfl
  have h₁ : getViewport navigatingBrowser 0 = (⟨1000, 800⟩, 0) := rfl
  have hexec : navigatingBrowser.execAction wClickA [] 0 = (⟨true, none⟩, 1) := rfl
  have hscroll : getScroll navigatingBrowser 1 = (⟨0, 0⟩, 1) := rfl
  have hsettle : waitForDOMSettle navigatingBrowser {} 1 = 1 := rfl
  have hhref : navigatingBrowser.evalHref 1 = .ok ("https://site.example/next", 1) := rfl
  exact executeBatch_bail_on_navigation "t" none none [wClickC] h₀ h₁
    (CleanSteps.nil 0 wClickA) (by decide) (by decide) (by decide) hexec hscroll
    hsettle hhref (by decide)

/-- The indexed first-match search projects to `List.find?`. -/
theorem findIdxAux_map_snd (p : α → Bool) (l : List α) :
    ∀ i, (findIdxAux p l i).map Prod.snd = l.find? p := by
  induction l with
  | nil => intro i; rfl
  | cons x xs ih =>
    intro i
    by_cases hp : p x
    · simp [findIdxAux, hp, List.find?_cons_of_pos _ hp]
    · simp only [findIdxAux, hp, List.find?_cons_of_neg _ (by simpa using hp),
        if_false, Bool.false_eq_true]
      exact ih (i + 1)

/-- `findWithIdx` is `find` together with the index it located. -/
theorem findWithIdx_map_snd (data : StoreData) (domain name : String) :
    (findWithIdx data domain name).map Prod.snd = find data domain name := by
  rcases hd : getData data domain with _ | d
  · unfold findWithIdx find
    rw [hd]
    rfl
  · have hW : findWithIdx data domain name =
        (match findIdxAux (exactMatch (strToLower name)) d.playbooks 0 with
         | some r => some r
         | none => findIdxAux (partialMatch (strToLower name)) d.playbooks 0) := by
      unfold findWithIdx
      rw [hd]
    rw [hW, find_of_getData data domain name d hd]
    rcases he : findIdxAux (exactMatch (strToLower name)) d.playbooks 0 with _ | r
    · have h1 : d.playbooks.find? (exactMatch (strToLower name)) = none := by
        rw [← findIdxAux_map_snd (exactMatch (strToLower name)) d.playbooks 0, he]
        rfl
      rw [h1]
      exact findIdxAux_map_snd _ _ 0
    · have h1 : d.playbooks.find? (exactMatch (strToLower name)) = some r.2 := by
        rw [← findIdxAux_map_snd (exactMatch (strToLower name)) d.playbooks 0, he]
        rfl
      rw [h1]
      rfl

/-- C4: Unknown playbook reference is skippable, never fatal — when `find`
does not resolve the referenced name, `expand` returns null, the executor
appends a failed "playbook not found" result for that slot, and the loop
continues with the next queued plan item with driver state and store
untouched, instead of aborting the batch. -/
theorem executeBatch_skips_unknown_playbook {σ : Type} (B : Browser σ)
    (formatFn : Action → String) (now : String) (elements : List PageElement)
    (vp : Viewport) (url : String) (sd : StoreData) (dom : String)
    (a : Action) (rest : List Action) (s : σ)
    (accR : List BatchActionResult) (accOps : List RecordedOperation)
    (name : String)
    (ht1 : a.type ≠ ActionType.done) (ht2 : a.type ≠ ActionType.failed)
    (hname : a.playbook = some name) (hname2 : name ≠ "") (hdom : dom ≠ "")
    (hfind : find sd dom name = none) :
    expand sd dom name vp = none ∧
    executeBatchLoop B formatFn now elements (some dom) vp url (a :: rest) s
        (some sd) accR accOps =
      executeBatchLoop B formatFn now elements (some dom) vp url rest s (some sd)
        (accR ++ [⟨"Playbook \"" ++ name ++ "\" (not found, skipped)", false,
          some "playbook not found"⟩]) accOps := by
  have hexp : expand sd dom name vp = none := by
    unfold expand
    rw [hfind]
  refine ⟨hexp, ?_⟩
  have hW : findWithIdx sd dom name = none := by
    have h2 := findWithIdx_map_snd sd dom name
    rw [hfind] at h2
    exact Option.map_eq_none.mp h2
  have hb1 : (a.type == ActionType.done || a.type == ActionType.failed) = false := by
    simp [ht1, ht2]
  have hb2 : (truthyStr (some name) && (some sd : Option StoreData).isSome
      && truthyStr (some dom)) = true := by
    simp [truthyStr, hname2, hdom]
  simp only [executeBatchLoop, hb1, hb2, Bool.false_eq_true, if_false, if_true,
    hname, Option.getD_some, hW]

theorem executeBatch_skips_unknown_playbook_witness :
    expand wStore "site.example" "nonexistent" ⟨1000, 800⟩ = none ∧
    executeBatchLoop failingActionBrowser (fun a => a.type.str) "t" []
        (some "site.example") ⟨1000, 800⟩ "https://site.example/" [wPbAction] ()
        (some wStore) [] [] =
      executeBatchLoop failingActionBrowser (fun a => a.type.str) "t" []
        (some "site.example") ⟨1000, 800⟩ "https://site.example/" [] ()
        (some wStore)
        [⟨"Playbook \"nonexistent\" (not found, skipped)", false,
          some "playbook not found"⟩] [] := by
  have hfind : find wStore "site.example" "nonexistent" = none := by decide
  exact executeBatch_skips_unknown_playbook failingActionBrowser
    (fun a => a.type.str) "t" [] ⟨1000, 800⟩ "https://site.example/" wStore
    "site.example" wPbAction [] () [] [] "nonexistent" (by decide) (by decide)
    rfl (by decide) (by decide) hfind

/-- `getData` after a `setData`. -/
theorem getData_setData (data : StoreData) (domain d' : String) (pd : PlaybookData) :
    getData (setData data domain pd) d' =
      if domain = d' then some pd else getData data d' := by
  induction data with
  | nil =>
    simp only [setData, getData]
    by_cases h : domain = d'
    · simp [h]
    · simp [h]
  | cons kv rest ih =>
    obtain ⟨k, v⟩ := kv
    simp only [setData]
    by_cases hk : k = domain
    · subst hk
      by_cases h2 : k = d'
      · subst h2
        simp [getData]
      · simp [getData, h2]
    · by_cases h2 : k = d'
      · subst h2
        simp [getData, hk, Ne.symm hk]
      · simp [getData, hk, h2, ih]

/-- `listModify` preserves any projection the update function preserves. -/
theorem listModify_map (f : α → α) (g : α → β) (hfg : ∀ x, g (f x) = g x) :
    ∀ (i : ℕ) (l : List α), (listModify f i l).map g = l.map g := by
  intro i l
  induction l generalizing i with
  | nil => simp [listModify]
  | cons x xs ih =>
    cases i with
    | zero => simp [listModify, hfg]
    | succ n => simp [listModify, ih]

/-- Updating one playbook with an operations-preserving function leaves every
domain's operation lists unchanged. -/
theorem getPlaybooks_updatePlaybookAt (data : StoreData) (domain : String)
    (i : ℕ) (f : Playbook → Playbook)
    (hf : ∀ p, (f p).operations = p.operations) (d' : String) :
    (getPlaybooks (updatePlaybookAt data domain i f) d').map Playbook.operations =
      (getPlaybooks data d').map Playbook.operations := by
  unfold updatePlaybookAt
  rcases hd : getData data domain with _ | d
  · rfl
  · unfold getPlaybooks
    rw [getData_setData]
    by_cases h2 : domain = d'
    · subst h2
      rw [hd]
      simp [listModify_map f Playbook.operations hf]
    · simp [h2]

/-- Success/failure marking at an index never touches stored operations. -/
theorem storeOps_updatePlaybookAt (data : StoreData) (domain : String) (i : ℕ)
    (f : Playbook → Playbook) (hf : ∀ p, (f p).operations = p.operations)
    (d' : String) :
    storeOps (some (updatePlaybookAt data domain i f)) d' =
      storeOps (some data) d' := by
  show some ((getPlaybooks (updatePlaybookAt data domain i f) d').map
      Playbook.operations) =
    some ((getPlaybooks data d').map Playbook.operations)
  exact congrArg some (getPlaybooks_updatePlaybookAt data domain i f hf d')

/-- executeBatch's loop never modifies any stored playbook's operations:
the store changes only through markSuccess / markFailure bookkeeping. -/
theorem executeBatchLoop_preserves_storeOps {σ : Type} (B : Browser σ)
    (formatFn : Action → String) (now : String) (elements : List PageElement)
    (domain : Option String) (vp : Viewport) (url : String) :
    ∀ (actions : List Action) (s : σ) (store : Option StoreData)
      (accR : List BatchActionResult) (accOps : List RecordedOperation)
      (d : String),
      storeOps (executeBatchLoop B formatFn now elements domain vp url actions s
        store accR accOps).store d = storeOps store d := by
  intro actions
  induction actions with
  | nil => intro s store accR accOps d; rfl
  | cons a rest ih =>
    intro s store accR accOps d
    simp only [executeBatchLoop]
    split
    · rfl
    · split
      · next hcond =>
        have hsome : store.isSome = true := by
          have h2 := hcond
          simp only [Bool.and_eq_true] at h2
          exact h2.1.2
        obtain ⟨sd, rfl⟩ := Option.isSome_iff_exists.mp hsome
        simp only [Option.getD_some]
        split
        · apply ih
        · split
          · split
            · exact storeOps_updatePlaybookAt sd (domain.getD "") _
                (markFailure now) (fun p => rfl) d
            · rfl
          · rw [ih]
            exact storeOps_updatePlaybookAt sd (domain.getD "") _
              (markSuccess now) (fun p => rfl) d
      · split
        · rfl
        · split
          · rfl
          · split
            · rfl
            · split
              · rfl
              · split
                · split
                  · split
                    · split
                      · rfl
                      · apply ih
                    · rfl
                  · apply ih
                · apply ih

/-- Fuel-0 unfolding of the stitching loop. -/
theorem stitchLoop_zero (hash : String → String) (now : String)
    (domain pagePath : String) (viewport : Viewport)
    (log : List RecordedOperation) (start : ℕ) (data : StoreData)
    (created : List Playbook) :
    stitchLoop hash now domain pagePath viewport log 0 start data created =
      (data, created) := rfl

/-- One-step unfolding of the stitching loop. -/
theorem stitchLoop_succ (hash : String → String) (now : String)
    (domain pagePath : String) (viewport : Viewport)
    (log : List RecordedOperation) (fuel start : ℕ) (data : StoreData)
    (created : List Playbook) :
    stitchLoop hash now domain pagePath viewport log (fuel + 1) start data created =
      (if start < log.length then
        let e := min (start + 6) log.length
        let group := (log.drop start).take (e - start)
        if group.length < 2 then
          stitchLoop hash now domain pagePath viewport log fuel (start + 1) data
            created
        else
          let name := autoName group
          match findWithIdx data domain name with
          | some r =>
            stitchLoop hash now domain pagePath viewport log fuel (start + 1)
              (updatePlaybookAt data domain r.1 (markSuccess now)) created
          | none =>
            let r := record hash now data domain pagePath name group viewport
            stitchLoop hash now domain pagePath viewport log fuel e r.2
              (created ++ [r.1])
      else (data, created)) := rfl

/-- The indexed first-match search finds something whenever a member
satisfies the predicate. -/
theorem findIdxAux_isSome_of_mem (p : α → Bool) (l : List α) (x : α)
    (hx : x ∈ l) (hpx : p x = true) :
    ∀ j, (findIdxAux p l j).isSome = true := by
  induction l with
  | nil => cases hx
  | cons y ys ih =>
    intro j
    rcases List.mem_cons.mp hx with rfl | hx'
    · simp [findIdxAux, hpx]
    · by_cases hp : p y
      · simp [findIdxAux, hp]
      · simp only [findIdxAux, hp, Bool.false_eq_true, if_false]
        exact ih hx' (j + 1)

/-- Modifying one element with a predicate-preserving function does not
change whether the indexed search succeeds. -/
theorem findIdxAux_listModify_isSome (p : α → Bool) (f : α → α)
    (hpf : ∀ x, p (f x) = p x) :
    ∀ (l : List α) (i' j : ℕ),
      (findIdxAux p (listModify f i' l) j).isSome =
        (findIdxAux p l j).isSome := by
  intro l
  induction l with
  | nil => intro i' j; cases i' <;> rfl
  | cons x xs ih =>
    intro i' j
    cases i' with
    | zero =>
      by_cases hp : p x
      · simp [listModify, findIdxAux, hpf, hp]
      · simp only [listModify, findIdxAux, hpf, hp, Bool.false_eq_true, if_false]
    | succ n =>
      by_cases hp : p x
      · simp [listModify, findIdxAux, hp]
      · simp only [listModify, findIdxAux, hp, Bool.false_eq_true, if_false]
        exact ih n (j + 1)

/-- Marking success/failure on one playbook does not change whether `find`
(and thus `findWithIdx`) resolves a name in that domain. -/
theorem findWithIdx_isSome_updatePlaybookAt (data : StoreData)
    (domain n : String) (i' : ℕ) (f : Playbook → Playbook)
    (hf : ∀ p, (f p).name = p.name) :
    (findWithIdx (updatePlaybookAt data domain i' f) domain n).isSome =
      (findWithIdx data domain n).isSome := by
  unfold updatePlaybookAt
  rcases hd : getData data domain with _ | d
  · rfl
  · unfold findWithIdx
    rw [getData_setData, if_pos rfl, hd]
    show (match findIdxAux (exactMatch (strToLower n))
          (listModify f i' d.playbooks) 0 with
        | some r => some r
        | none => findIdxAux (partialMatch (strToLower n))
            (listModify f i' d.playbooks) 0).isSome =
      (match findIdxAux (exactMatch (strToLower n)) d.playbooks 0 with
        | some r => some r
        | none => findIdxAux (partialMatch (strToLower n)) d.playbooks 0).isSome
    have hexP : ∀ q, exactMatch (strToLower n) (f q) = exactMatch (strToLower n) q := by
      intro q
      unfold exactMatch
      rw [hf q]
    have hparP : ∀ q, partialMatch (strToLower n) (f q) = partialMatch (strToLower n) q := by
      intro q
      unfold partialMatch
      rw [hf q]
    have hex := findIdxAux_listModify_isSome (exactMatch (strToLower n)) f hexP
      d.playbooks i' 0
    have hpar := findIdxAux_listModify_isSome (partialMatch (strToLower n)) f hparP
      d.playbooks i' 0
    rcases he : findIdxAux (exactMatch (strToLower n)) d.playbooks 0 with _ | r
    · rw [he] at hex
      rcases he2 : findIdxAux (exactMatch (strToLower n))
          (listModify f i' d.playbooks) 0 with _ | r2
      · simpa using hpar
      · rw [he2] at hex
        simp at hex
    · rw [he] at hex
      rcases he2 : findIdxAux (exactMatch (strToLower n))
          (listModify f i' d.playbooks) 0 with _ | r2
      · rw [he2] at hex
        simp at hex
      · rfl

/-- The playbook `record` returns, in explicit form. -/
theorem record_fst (hash : String → String) (now : String) (data : StoreData)
    (domain pagePath n : String) (ops : List RecordedOperation)
    (viewport : Viewport) :
    (record hash now data domain pagePath n ops viewport).1 =
      { id := generateId hash ops, name := n, domain := domain,
        pagePath := pagePath, operations := ops.map toPlaybookOperation,
        recordedViewport := viewport, successCount := 1, failCount := 0,
        lastUsed := now, createdAt := now } := by
  unfold record
  simp only []

/-- The store after `record` holds the new playbook appended to the domain's
list. -/
theorem getData_record (hash : String → String) (now : String) (data : StoreData)
    (domain pagePath n : String) (ops : List RecordedOperation)
    (viewport : Viewport) :
    ∃ d : PlaybookData,
      getData (record hash now data domain pagePath n ops viewport).2 domain =
        some ⟨d.domain,
          d.playbooks ++ [(record hash now data domain pagePath n ops viewport).1]⟩ := by
  refine ⟨(getData (if (getData data domain).isSome then data
    else setData data domain ⟨domain, []⟩) domain).getD ⟨domain, []⟩, ?_⟩
  show getData (setData _ domain _) domain = _
  rw [getData_setData]
  simp [record_fst]

/-- After `record`, `findWithIdx` resolves the recorded name (the new
playbook is an exact match). -/
theorem findWithIdx_record_isSome (hash : String → String) (now : String)
    (data : StoreData) (domain pagePath n : String)
    (ops : List RecordedOperation) (viewport : Viewport) :
    (findWithIdx (record hash now data domain pagePath n ops viewport).2
      domain n).isSome = true := by
  obtain ⟨d, hd⟩ := getData_record hash now data domain pagePath n ops viewport
  unfold findWithIdx
  rw [hd]
  show (match findIdxAux (exactMatch (strToLower n))
        (d.playbooks ++ [(record hash now data domain pagePath n ops viewport).1])
        0 with
      | some r => some r
      | none => findIdxAux (partialMatch (strToLower n))
          (d.playbooks ++
            [(record hash now data domain pagePath n ops viewport).1]) 0).isSome
    = true
  have hmem : (record hash now data domain pagePath n ops viewport).1 ∈
      d.playbooks ++ [(record hash now data domain pagePath n ops viewport).1] := by
    simp
  have hpx : exactMatch (strToLower n)
      (record hash now data domain pagePath n ops viewport).1 = true := by
    unfold exactMatch
    have hn : (record hash now data domain pagePath n ops viewport).1.name = n := rfl
    rw [hn]
    exact beq_self_eq_true _
  have h3 := findIdxAux_isSome_of_mem _ _ _ hmem hpx 0
  rcases he : findIdxAux (exactMatch (strToLower n))
      (d.playbooks ++ [(record hash now data domain pagePath n ops viewport).1]) 0
      with _ | r
  · rw [he] at h3
    simp at h3
  · rfl

/-- C1 (amended): on a log of exactly two operations, restitching the
identical log a second time creates zero net-new playbooks — the single
candidate window's auto-name resolves (via find) to a stored playbook, that
playbook's success count is incremented at the index it was found
(`markSuccess`), and nothing else in the store changes.  (For longer logs a
second call can create net-new playbooks, because the success branch
advances the scan pointer by one position instead of past the consumed
window; see the counterexample.) -/
theorem stitchFromLog_second_call_two_ops (hash : String → String)
    (now₁ now₂ : String) (data : StoreData) (domain pagePath : String)
    (log : List RecordedOperation) (viewport : Viewport)
    (h2 : log.length = 2) :
    (stitchFromLog hash now₂
        (stitchFromLog hash now₁ data domain pagePath log viewport).1
        domain pagePath log viewport).2 = [] ∧
    ∃ i p,
      findWithIdx (stitchFromLog hash now₁ data domain pagePath log viewport).1
        domain (autoName log) = some (i, p) ∧
      (stitchFromLog hash now₂
          (stitchFromLog hash now₁ data domain pagePath log viewport).1
          domain pagePath log viewport).1 =
        updatePlaybookAt
          (stitchFromLog hash now₁ data domain pagePath log viewport).1 domain i
          (markSuccess now₂) := by
  rcases log with _ | ⟨x, _ | ⟨y, _ | ⟨z, log⟩⟩⟩
  · simp at h2
  · simp at h2
  case cons.cons.cons => simp at h2
  have hstitch : ∀ (nw : String) (dt : StoreData),
      stitchFromLog hash nw dt domain pagePath [x, y] viewport =
        (match findWithIdx dt domain (autoName [x, y]) with
         | some r => (updatePlaybookAt dt domain r.1 (markSuccess nw), [])
         | none =>
           ((record hash nw dt domain pagePath (autoName [x, y]) [x, y]
              viewport).2,
            [(record hash nw dt domain pagePath (autoName [x, y]) [x, y]
              viewport).1])) := by
    intro nw dt
    have e1 : stitchFromLog hash nw dt domain pagePath [x, y] viewport =
        (match findWithIdx dt domain (autoName [x, y]) with
         | some r => stitchLoop hash nw domain pagePath viewport [x, y] 1 1
             (updatePlaybookAt dt domain r.1 (markSuccess nw)) []
         | none =>
           stitchLoop hash nw domain pagePath viewport [x, y] 1 2
             (record hash nw dt domain pagePath (autoName [x, y]) [x, y]
               viewport).2
             [(record hash nw dt domain pagePath (autoName [x, y]) [x, y]
               viewport).1]) := rfl
    rcases hW : findWithIdx dt domain (autoName [x, y]) with _ | r
    · rw [e1, hW]
      rfl
    · rw [e1, hW]
      rfl
  rcases hW1 : findWithIdx data domain (autoName [x, y]) with _ | r1
  · -- first call records a new playbook; the second finds it by exact match
    have h1 := hstitch now₁ data
    rw [hW1] at h1
    have hsome : (findWithIdx
        (record hash now₁ data domain pagePath (autoName [x, y]) [x, y]
          viewport).2 domain (autoName [x, y])).isSome = true :=
      findWithIdx_record_isSome hash now₁ data domain pagePath (autoName [x, y])
        [x, y] viewport
    rcases hW2 : findWithIdx
        (record hash now₁ data domain pagePath (autoName [x, y]) [x, y]
          viewport).2 domain (autoName [x, y]) with _ | r2
    · rw [hW2] at hsome
      simp at hsome
    · have h2c := hstitch now₂
        (record hash now₁ data domain pagePath (autoName [x, y]) [x, y]
          viewport).2
      rw [hW2] at h2c
      rw [h1]
      refine ⟨by rw [h2c], r2.1, r2.2, hW2, by rw [h2c]⟩
  · -- first call bumps an existing playbook; the second finds it again
    have h1 := hstitch now₁ data
    rw [hW1] at h1
    have hsome : (findWithIdx
        (updatePlaybookAt data domain r1.1 (markSuccess now₁)) domain
        (autoName [x, y])).isSome = true := by
      rw [findWithIdx_isSome_updatePlaybookAt data domain (autoName [x, y]) r1.1
        (markSuccess now₁) (fun p => rfl), hW1]
      rfl
    rcases hW2 : findWithIdx
        (updatePlaybookAt data domain r1.1 (markSuccess now₁)) domain
        (autoName [x, y]) with _ | r2
    · rw [hW2] at hsome
      simp at hsome
    · have h2c := hstitch now₂
        (updatePlaybookAt data domain r1.1 (markSuccess now₁))
      rw [hW2] at h2c
      rw [h1]
      refine ⟨by rw [h2c], r2.1, r2.2, hW2, by rw [h2c]⟩

/-- C1 counterexample: on an identical four-operation log, the second
stitchFromLog call creates one net-new playbook where the claim requires
zero — the success branch advances the scan pointer by one position instead
of past the consumed window, so the overlapping window starting at position
1 carries a fresh auto-name and is recorded as new. -/
theorem stitchFromLog_second_call_counterexample :
    (stitchFromLog (fun s => s) "t2"
        (stitchFromLog (fun s => s) "t1" [] "site.example" "/" cLog
          ⟨1000, 800⟩).1
        "site.example" "/" cLog ⟨1000, 800⟩).2 ≠ [] ∧
    ((stitchFromLog (fun s => s) "t2"
        (stitchFromLog (fun s => s) "t1" [] "site.example" "/" cLog
          ⟨1000, 800⟩).1
        "site.example" "/" cLog ⟨1000, 800⟩).2).length = 1 := by
  constructor
  · decide
  · decide

theorem stitchFromLog_second_call_two_ops_witness :
    (stitchFromLog (fun s => s) "t2"
        (stitchFromLog (fun s => s) "t1" [] "site.example" "/" cLog2
          ⟨1000, 800⟩).1
        "site.example" "/" cLog2 ⟨1000, 800⟩).2 = [] ∧
    ∃ i p,
      findWithIdx
        (stitchFromLog (fun s => s) "t1" [] "site.example" "/" cLog2
          ⟨1000, 800⟩).1 "site.example" (autoName cLog2) = some (i, p) ∧
      (stitchFromLog (fun s => s) "t2"
          (stitchFromLog (fun s => s) "t1" [] "site.example" "/" cLog2
            ⟨1000, 800⟩).1
          "site.example" "/" cLog2 ⟨1000, 800⟩).1 =
        updatePlaybookAt
          (stitchFromLog (fun s => s) "t1" [] "site.example" "/" cLog2
            ⟨1000, 800⟩).1 "site.example" i (markSuccess "t2") :=
  stitchFromLog_second_call_two_ops (fun s => s) "t1" "t2" [] "site.example" "/"
    cLog2 ⟨1000, 800⟩ rfl

/-- C8: expand frame condition — `expand` returns the rescaled copy of the
stored operation list next to the untouched stored playbook handle (whose
`operations` field is exactly what `find` returns, with every stored
position unchanged), and batch replay, which borrows playbooks only through
`expand`, never alters any stored playbook's operations: executeBatch's
store updates (markSuccess / markFailure) leave every domain's operation
lists identical. -/
theorem expand_frame_condition {σ : Type} :
    (∀ (data : StoreData) (domain name : String) (vp : Viewport)
        (ops : List PlaybookOperation) (pb : Playbook),
      expand data domain name vp = some (ops, pb) →
        find data domain name = some pb ∧
        ops = rescaleOps pb.operations vp ∧
        ∀ i op, pb.operations.get? i = some op →
          ops.get? i = some (rescaleOp vp op)) ∧
    (∀ (B : Browser σ) (formatFn : Action → String) (now : String)
        (actions : List Action) (elements : List PageElement)
        (store : Option StoreData) (domain : Option String) (s₀ : σ)
        (d : String),
      storeOps (executeBatch B formatFn now actions elements store domain
        s₀).2.2 d = storeOps store d) := by
  constructor
  · intro data domain name vp ops pb h
    unfold expand at h
    rcases hf : find data domain name with _ | pb'
    · rw [hf] at h
      cases h
    · rw [hf] at h
      simp only [Option.some.injEq, Prod.mk.injEq] at h
      obtain ⟨hops, hpb⟩ := h
      refine ⟨?_, ?_, ?_⟩
      · exact congrArg some hpb
      · rw [← hops, hpb]
      · intro i op hop
        rw [← hops]
        unfold rescaleOps
        rw [← hpb] at hop
        rw [List.get?_map, hop]
        rfl
  · intro B formatFn now actions elements store domain s₀ d
    unfold executeBatch
    exact executeBatchLoop_preserves_storeOps B formatFn now elements domain _ _
      actions _ store [] [] d

theorem expand_frame_condition_witness :
    (find wStore "site.example" "login form" = some wPb ∧
      rescaleOps wPb.operations ⟨1000, 800⟩ = rescaleOps wPb.operations ⟨1000, 800⟩ ∧
      ∀ i op, wPb.operations.get? i = some op →
        (rescaleOps wPb.operations ⟨1000, 800⟩).get? i =
          some (rescaleOp ⟨1000, 800⟩ op)) ∧
    storeOps (executeBatch failingActionBrowser (fun a => a.type.str) "t"
      [wClickA] [] (some wStore) (some "site.example") ()).2.2 "site.example" =
      storeOps (some wStore) "site.example" := by
  constructor
  · exact (@expand_frame_condition Unit).1 wStore "site.example" "login form"
      ⟨1000, 800⟩ (rescaleOps wPb.operations ⟨1000, 800⟩) wPb (by decide)
  · exact (@expand_frame_condition Unit).2 failingActionBrowser
      (fun a => a.type.str) "t" [wClickA] [] (some wStore) (some "site.example")
      () "site.example"

end Abra
